import Mathlib

/-!
Verification of the BCOGRegApp dashboard pipeline (`streamlit_app.py`).

The development shallowly embeds the repository-authored logic of the app:
geometry decomposition (`extract_coordinates`), archive extraction and its
temporary-directory scope, coordinate-reference normalization, the spatial
join (`gpd.sjoin(..., how='left', predicate='within')`), the per-region
aggregation (`groupby('REGION_NAM').agg({'Rate': 'mean', 'Area': 'sum'})`),
the left merge back onto the region frame, and the chart data preparation.

External collaborators (shapely containment, pyproj reprojection, the
pandas parsers) are modelled as explicit parameters.  Numeric columns are
modelled as exact rationals; shapely coordinate pairs as pairs of rationals.
-/

namespace BCOGRegApp

/-- A 2D coordinate, as stored in a shapely ring (modelled exactly, over ℚ). -/
abbrev Coord : Type := ℚ × ℚ

/-- The shapely geometry values the app passes around.  `polygon` carries the
exterior-ring coordinate sequence, `multiPolygon` the exterior rings of its
parts in part order.  `point` and `other` are the remaining geometry types,
which `extract_coordinates` treats uniformly through its implicit else
branch. -/
inductive Geometry where
  | polygon (exterior : List Coord)
  | multiPolygon (polys : List (List Coord))
  | point (x y : ℚ)
  | other
  deriving DecidableEq

/-- Models `x, y = zip(*ring)` on one exterior-ring coordinate sequence:
splits the ring into the x-list and the y-list.  On an empty coordinate
sequence the Python unpacking `x, y = zip(*coords)` raises `ValueError`
("not enough values to unpack"), modelled as `none`. -/
def ringXY (ext : List Coord) : Option (List (Option ℚ) × List (Option ℚ)) :=
  match ext with
  | [] => none
  | _ => some (ext.map (fun c => some c.1), ext.map (fun c => some c.2))

/-- Models the `for poly in geometry.geoms` loop of `extract_coordinates`:
each part contributes its exterior ring's coordinates followed by one `None`
pen-lift separator, parts processed in order (the loop's repeated `extend`
is rendered as the equivalent structural recursion). -/
def multiXY : List (List Coord) → Option (List (Option ℚ) × List (Option ℚ))
  | [] => some ([], [])
  | p :: ps =>
    match ringXY p, multiXY ps with
    | some xy, some rest => some (xy.1 ++ [none] ++ rest.1, xy.2 ++ [none] ++ rest.2)
    | _, _ => none

/-- `extract_coordinates` (streamlit_app.py lines 18-31): flattens a polygon
or multi-polygon into parallel x/y lists with `None` separators; any other
geometry falls through both `isinstance` checks and yields two empty lists.
`none` models the `ValueError` raised by `x, y = zip(*coords)` on an empty
ring. -/
def extract_coordinates : Geometry → Option (List (Option ℚ) × List (Option ℚ))
  | .polygon ext => (ringXY ext).map (fun xy => (xy.1 ++ [none], xy.2 ++ [none]))
  | .multiPolygon polys => multiXY polys
  | .point _ _ => some ([], [])
  | .other => some ([], [])

/-- Whether a geometry is one of the two types `extract_coordinates`
explicitly handles. -/
def isPolygonal : Geometry → Bool
  | .polygon _ => true
  | .multiPolygon _ => true
  | _ => false

/-- All exterior rings of the geometry are nonempty coordinate sequences
(true of every shapely polygon except the empty `Polygon()`). -/
def ringsNonempty : Geometry → Prop
  | .polygon ext => ext ≠ []
  | .multiPolygon polys => ∀ p ∈ polys, p ≠ []
  | _ => True

lemma multiXY_eq_flatten (polys : List (List Coord)) (h : ∀ p ∈ polys, p ≠ []) :
    multiXY polys =
      some ((polys.map (fun p => p.map (fun c => some c.1) ++ [none])).flatten,
            (polys.map (fun p => p.map (fun c => some c.2) ++ [none])).flatten) := by
  induction polys with
  | nil => simp [multiXY]
  | cons p ps ih =>
    have hp : p ≠ [] := h p (List.mem_cons_self p ps)
    have hps : ∀ q ∈ ps, q ≠ [] := fun q hq => h q (List.mem_cons_of_mem p hq)
    have hring : ringXY p = some (p.map (fun c => some c.1), p.map (fun c => some c.2)) := by
      cases p with
      | nil => exact absurd rfl hp
      | cons c cs => simp [ringXY]
    simp [multiXY, hring, ih hps, List.append_assoc]

lemma count_none_map_fst (ext : List Coord) :
    ((ext.map (fun (c : Coord) => (some c.1 : Option ℚ))).count none) = 0 :=
  List.count_eq_zero.mpr (by
    intro hmem
    rcases List.mem_map.mp hmem with ⟨c, _, hc⟩
    exact Option.noConfusion hc)

lemma count_none_sep (l : List (Option ℚ)) (h : l.count none = 0) :
    ((l ++ [none]).count none) = 1 := by
  rw [List.count_append, h]
  rfl

lemma count_none_flatten (polys : List (List Coord)) :
    (((polys.map (fun p => p.map (fun (c : Coord) => (some c.1 : Option ℚ)) ++ [none])).flatten).count
        none) = polys.length := by
  induction polys with
  | nil => simp
  | cons p ps ih =>
    rw [List.map_cons, List.flatten_cons, List.count_append, ih,
        count_none_sep _ (count_none_map_fst p), List.length_cons]
    omega

lemma multiXY_lengths (polys : List (List Coord)) :
    ∀ xs ys, multiXY polys = some (xs, ys) → xs.length = ys.length := by
  induction polys with
  | nil =>
    intro xs ys h
    simp only [multiXY, Option.some.injEq, Prod.mk.injEq] at h
    rw [← h.1, ← h.2]
  | cons p ps ih =>
    intro xs ys h
    simp only [multiXY] at h
    cases hr : ringXY p with
    | none => rw [hr] at h; simp at h
    | some xy =>
      cases hm : multiXY ps with
      | none => rw [hr, hm] at h; simp at h
      | some rest =>
        rw [hr, hm] at h
        simp only [Option.some.injEq, Prod.mk.injEq] at h
        have hxy : xy.1.length = xy.2.length := by
          cases p with
          | nil => simp [ringXY] at hr
          | cons c cs =>
            simp only [ringXY] at hr
            cases hr
            simp
        have hrest : rest.1.length = rest.2.length := ih rest.1 rest.2 (by rw [hm])
        rw [← h.1, ← h.2]
        simp [hxy, hrest]

/-- C4: for a polygon, `extract_coordinates` emits the exterior-ring
coordinates in their original order followed by exactly one `None` pen-lift
separator; for a multi-polygon it emits each part's exterior ring followed
by one separator, concatenated in part order, producing exactly one
separator per part and preserving every ring's coordinate order. -/
theorem extract_coordinates_ring_order
    (ext : List Coord) (hext : ext ≠ [])
    (polys : List (List Coord)) (hpolys : ∀ p ∈ polys, p ≠ []) :
    extract_coordinates (Geometry.polygon ext) =
      some (ext.map (fun c => some c.1) ++ [none],
            ext.map (fun c => some c.2) ++ [none]) ∧
    (ext.map (fun (c : Coord) => (some c.1 : Option ℚ)) ++ [none]).count none = 1 ∧
    extract_coordinates (Geometry.multiPolygon polys) =
      some ((polys.map (fun p => p.map (fun c => some c.1) ++ [none])).flatten,
            (polys.map (fun p => p.map (fun c => some c.2) ++ [none])).flatten) ∧
    ((polys.map (fun p => p.map (fun (c : Coord) => (some c.1 : Option ℚ)) ++ [none])).flatten).count none
      = polys.length := by
  refine ⟨?_, ?_, ?_, ?_⟩
  · cases ext with
    | nil => exact absurd rfl hext
    | cons c cs => simp [extract_coordinates, ringXY]
  · exact count_none_sep _ (count_none_map_fst ext)
  · simp [extract_coordinates, multiXY_eq_flatten polys hpolys]
  · exact count_none_flatten polys

/-- A concrete square exterior ring, used in witnesses. -/
def sqRing : List Coord := [(0, 0), (1, 0), (1, 1), (0, 1), (0, 0)]

/-- A concrete triangular exterior ring, used in witnesses. -/
def triRingA : List Coord := [(0, 0), (1, 0), (0, 1), (0, 0)]

/-- A second concrete triangular exterior ring, used in witnesses. -/
def triRingB : List Coord := [(2, 2), (3, 2), (2, 3), (2, 2)]

/-- Witness for `extract_coordinates_ring_order` at a concrete square ring
and a two-part multi-polygon. -/
theorem extract_coordinates_ring_order_witness :
    extract_coordinates (Geometry.polygon sqRing) =
      some (sqRing.map (fun c => some c.1) ++ [none],
            sqRing.map (fun c => some c.2) ++ [none]) ∧
    (sqRing.map (fun (c : Coord) => (some c.1 : Option ℚ)) ++ [none]).count none = 1 ∧
    extract_coordinates (Geometry.multiPolygon [triRingA, triRingB]) =
      some (([triRingA, triRingB].map (fun p => p.map (fun c => some c.1) ++ [none])).flatten,
            ([triRingA, triRingB].map (fun p => p.map (fun c => some c.2) ++ [none])).flatten) ∧
    (([triRingA, triRingB].map
        (fun p => p.map (fun (c : Coord) => (some c.1 : Option ℚ)) ++ [none])).flatten).count none = 2 :=
  extract_coordinates_ring_order sqRing (by decide) [triRingA, triRingB] (by decide)

/-- C10 counterexample: `extract_coordinates` is not total.  On the empty
shapely `Polygon()` the unpacking `x, y = zip(*geometry.exterior.coords)`
raises `ValueError` (modelled by `none`), so the function does not return a
pair of sequences on every geometry input. -/
theorem extract_coordinates_empty_polygon_counterexample :
    extract_coordinates (Geometry.polygon []) = none ∧
    (extract_coordinates (Geometry.polygon [])).isSome = false := ⟨rfl, rfl⟩

/-- C10 (amended): on every geometry whose exterior rings are nonempty
coordinate sequences (all shapely geometries except those containing an
empty polygon), `extract_coordinates` returns without error; on any input
that is neither a polygon nor a multi-polygon it returns a pair of empty
sequences; and whenever it returns, the x-list and the y-list have equal
length. -/
theorem extract_coordinates_safe (g : Geometry) (hg : ringsNonempty g) :
    (extract_coordinates g).isSome = true ∧
    (isPolygonal g = false → extract_coordinates g = some ([], [])) ∧
    (∀ xs ys, extract_coordinates g = some (xs, ys) → xs.length = ys.length) := by
  refine ⟨?_, ?_, ?_⟩
  · cases g with
    | polygon ext =>
      cases ext with
      | nil => exact absurd rfl hg
      | cons c cs => simp [extract_coordinates, ringXY]
    | multiPolygon polys =>
      rw [extract_coordinates, multiXY_eq_flatten polys hg]
      rfl
    | point x y => rfl
    | other => rfl
  · cases g with
    | polygon ext => intro h; simp [isPolygonal] at h
    | multiPolygon polys => intro h; simp [isPolygonal] at h
    | point x y => intro _; rfl
    | other => intro _; rfl
  · intro xs ys h
    cases g with
    | polygon ext =>
      cases ext with
      | nil => simp [extract_coordinates, ringXY] at h
      | cons c cs =>
        simp only [extract_coordinates, ringXY, Option.map_some, Option.some.injEq] at h
        cases h
        simp
    | multiPolygon polys => exact multiXY_lengths polys xs ys h
    | point x y =>
      simp only [extract_coordinates, Option.some.injEq, Prod.mk.injEq] at h
      rw [← h.1, ← h.2]
    | other =>
      simp only [extract_coordinates, Option.some.injEq, Prod.mk.injEq] at h
      rw [← h.1, ← h.2]

/-- Witness for `extract_coordinates_safe` at a concrete one-part
multi-polygon. -/
theorem extract_coordinates_safe_witness :
    (extract_coordinates (Geometry.multiPolygon [triRingA])).isSome = true ∧
    (isPolygonal (Geometry.multiPolygon [triRingA]) = false →
      extract_coordinates (Geometry.multiPolygon [triRingA]) = some ([], [])) ∧
    (∀ xs ys,
      extract_coordinates (Geometry.multiPolygon [triRingA]) = some (xs, ys) →
        xs.length = ys.length) :=
  extract_coordinates_safe (Geometry.multiPolygon [triRingA])
    (by show ∀ p ∈ [triRingA], p ≠ []; decide)

/-- A region record parsed from the shapefile: its `REGION_NAM` attribute
and its geometry. -/
structure Region where
  name : String
  geom : Geometry
  deriving DecidableEq

/-- A parsed geometry dataset: the declared coordinate reference system (if
any) and the region rows. -/
structure GeoDataFrame where
  crs : Option String
  regions : List Region
  deriving DecidableEq

/-- A filesystem path, as its list of components. -/
abbrev Path := List String

/-- The files currently on disk, as a list of paths. -/
abbrev FS := List Path

/-- The downloaded archive as the extraction stage sees it: whether the
network fetch succeeds, whether the downloaded bytes form a valid zip
container, and the member file names `extractall` would produce. -/
structure Archive where
  fetchOk : Bool
  zipValid : Bool
  members : List String
  deriving DecidableEq

/-- Whether a file name ends in the shapefile extension, as tested by
`f.endswith(".shp")`. -/
def endsWithShp (s : String) : Bool := ".shp".data.isSuffixOf s.data

/-- The body of the `with tempfile.TemporaryDirectory()` block
(streamlit_app.py lines 36-46), with the filesystem passed explicitly:
create `regions.zip` and write the downloaded bytes into it (`open` creates
the file before the network read can fail), open and extract the zip, list
the directory, filter for `.shp` names, raise `FileNotFoundError` if there
are none, and otherwise parse the first one.  `parse` is the external
`gpd.read_file` collaborator; `Except.error` models the exception raised at
each stage.  `os.listdir(tmpdir)` sees the written zip plus the extracted
members; its order is modelled as the archive's member order. -/
def extraction_body (parse : Path → Except String GeoDataFrame) (ar : Archive)
    (tmpdir : Path) (fs : FS) : Except String GeoDataFrame × FS :=
  let fs1 := fs ++ [tmpdir ++ ["regions.zip"]]
  if ar.fetchOk = false then (Except.error "network fetch failed", fs1)
  else if ar.zipValid = false then (Except.error "File is not a zip file", fs1)
  else
    let fs2 := fs1 ++ ar.members.map (fun m => tmpdir ++ [m])
    match ("regions.zip" :: ar.members).filter endsWithShp with
    | [] => (Except.error "No .shp file found in the ZIP.", fs2)
    | f :: _ =>
      match parse (tmpdir ++ [f]) with
      | Except.error e => (Except.error e, fs2)
      | Except.ok gdf => (Except.ok gdf, fs2)

/-- `with tempfile.TemporaryDirectory() as tmpdir:` — run the body, then
remove the temporary directory and everything under it, whether the body
returned normally or raised. -/
def withTemporaryDirectory {α : Type} (tmpdir : Path)
    (body : FS → Except String α × FS) (fs : FS) : Except String α × FS :=
  ((body fs).1, (body fs).2.filter (fun p => !(tmpdir.isPrefixOf p)))

/-- The fresh temporary directory created for one invocation. -/
def tmpdirPath : Path := ["tmp", "tmpdir0"]

/-- The whole download-and-extract stage (streamlit_app.py lines 35-46). -/
def load_regions (parse : Path → Except String GeoDataFrame) (ar : Archive)
    (fs : FS) : Except String GeoDataFrame × FS :=
  withTemporaryDirectory tmpdirPath (extraction_body parse ar tmpdirPath) fs

lemma extraction_body_fs (parse : Path → Except String GeoDataFrame) (ar : Archive)
    (tmpdir : Path) (fs : FS) :
    (extraction_body parse ar tmpdir fs).2 = fs ++ [tmpdir ++ ["regions.zip"]] ∨
    (extraction_body parse ar tmpdir fs).2 =
      (fs ++ [tmpdir ++ ["regions.zip"]]) ++ ar.members.map (fun m => tmpdir ++ [m]) := by
  unfold extraction_body
  split
  · left; rfl
  · split
    · left; rfl
    · split
      · right; rfl
      · split
        · right; rfl
        · right; rfl

/-- C6: the temporary extraction directory is removed on every exit path.
Whatever the fetch outcome, zip validity, member list and parse outcome,
the filesystem after `load_regions` equals the filesystem before it
(given that, as `TemporaryDirectory` guarantees, the fresh directory name
was not previously in use). -/
theorem extraction_cleanup (parse : Path → Except String GeoDataFrame)
    (ar : Archive) (fs : FS)
    (hfs : ∀ p ∈ fs, tmpdirPath.isPrefixOf p = false) :
    (load_regions parse ar fs).2 = fs := by
  have hkeep : fs.filter (fun p => !(tmpdirPath.isPrefixOf p)) = fs :=
    List.filter_eq_self.mpr (fun p hp => by rw [hfs p hp]; rfl)
  have hpref : ∀ (x : String), tmpdirPath.isPrefixOf (tmpdirPath ++ [x]) = true := fun x =>
    List.isPrefixOf_iff_prefix.mpr (List.prefix_append _ _)
  show (extraction_body parse ar tmpdirPath fs).2.filter
      (fun p => !(tmpdirPath.isPrefixOf p)) = fs
  rcases extraction_body_fs parse ar tmpdirPath fs with h | h <;> rw [h]
  · rw [List.filter_append, hkeep]
    simp [hpref]
  · rw [List.filter_append, List.filter_append, hkeep]
    have h1 : List.filter (fun p => !(tmpdirPath.isPrefixOf p))
        [tmpdirPath ++ ["regions.zip"]] = [] := by simp [hpref]
    have h2 : (ar.members.map (fun m => tmpdirPath ++ [m])).filter
        (fun p => !(tmpdirPath.isPrefixOf p)) = [] := by
      apply List.filter_eq_nil_iff.mpr
      intro p hp
      rcases List.mem_map.mp hp with ⟨m, _, rfl⟩
      simp [hpref]
    rw [h1, h2]
    simp

/-- Witness for `extraction_cleanup`: a failing parse on a one-member
archive leaves the initial filesystem untouched. -/
theorem extraction_cleanup_witness :
    (load_regions (fun _ => Except.error "unparsable geometry")
      ⟨true, true, ["regions.shp"]⟩ [["home", "data.csv"]]).2 = [["home", "data.csv"]] :=
  extraction_cleanup (fun _ => Except.error "unparsable geometry")
    ⟨true, true, ["regions.shp"]⟩ [["home", "data.csv"]] (by decide)

/-- C7: on a fetched, valid archive, if no member name ends in `.shp` the
stage fails with the `FileNotFoundError` message and the result does not
depend on the parse collaborator at all (no parsing is attempted); if at
least one member name ends in `.shp`, the stage's result is exactly the
parse of the first such name in directory listing order. -/
theorem shapefile_selection (parse parse' : Path → Except String GeoDataFrame)
    (ar : Archive) (fs : FS) (hfetch : ar.fetchOk = true) (hzip : ar.zipValid = true) :
    (ar.members.filter endsWithShp = [] →
      (load_regions parse ar fs).1 = Except.error "No .shp file found in the ZIP." ∧
      load_regions parse ar fs = load_regions parse' ar fs) ∧
    (∀ f rest, ar.members.filter endsWithShp = f :: rest →
      (load_regions parse ar fs).1 = parse (tmpdirPath ++ [f])) := by
  have hzipname : endsWithShp "regions.zip" = false := by decide
  have hlist : ("regions.zip" :: ar.members).filter endsWithShp =
      ar.members.filter endsWithShp := by
    simp [List.filter_cons, hzipname]
  constructor
  · intro hnone
    have hbody : extraction_body parse ar tmpdirPath fs =
        (Except.error "No .shp file found in the ZIP.",
          (fs ++ [tmpdirPath ++ ["regions.zip"]]) ++
            ar.members.map (fun m => tmpdirPath ++ [m])) := by
      simp only [extraction_body, hfetch, hzip, hlist, hnone]
      rfl
    have hbody' : extraction_body parse' ar tmpdirPath fs =
        (Except.error "No .shp file found in the ZIP.",
          (fs ++ [tmpdirPath ++ ["regions.zip"]]) ++
            ar.members.map (fun m => tmpdirPath ++ [m])) := by
      simp only [extraction_body, hfetch, hzip, hlist, hnone]
      rfl
    constructor
    · show (extraction_body parse ar tmpdirPath fs).1 = _
      rw [hbody]
    · show ((extraction_body parse ar tmpdirPath fs).1,
          (extraction_body parse ar tmpdirPath fs).2.filter
            (fun p => !(tmpdirPath.isPrefixOf p))) =
        ((extraction_body parse' ar tmpdirPath fs).1,
          (extraction_body parse' ar tmpdirPath fs).2.filter
            (fun p => !(tmpdirPath.isPrefixOf p)))
      rw [hbody, hbody']
  · intro f rest hsome
    have hbody : (extraction_body parse ar tmpdirPath fs).1 = parse (tmpdirPath ++ [f]) := by
      simp only [extraction_body, hfetch, hzip, hlist, hsome]
      cases parse (tmpdirPath ++ [f]) with
      | error e => rfl
      | ok gdf => rfl
    show (extraction_body parse ar tmpdirPath fs).1 = _
    exact hbody

/-- Witness for `shapefile_selection`: an archive with two `.shp` members
selects the first in listing order; one with none fails before parsing. -/
theorem shapefile_selection_witness :
    ((⟨true, true, ["b.shp", "a.shp"]⟩ : Archive).members.filter endsWithShp = [] →
      (load_regions (fun _ => Except.ok ⟨some "EPSG:4326", []⟩)
          ⟨true, true, ["b.shp", "a.shp"]⟩ []).1 =
        Except.error "No .shp file found in the ZIP." ∧
      load_regions (fun _ => Except.ok ⟨some "EPSG:4326", []⟩)
          ⟨true, true, ["b.shp", "a.shp"]⟩ [] =
        load_regions (fun _ => Except.error "boom") ⟨true, true, ["b.shp", "a.shp"]⟩ []) ∧
    (∀ f rest,
      (⟨true, true, ["b.shp", "a.shp"]⟩ : Archive).members.filter endsWithShp = f :: rest →
      (load_regions (fun _ => Except.ok ⟨some "EPSG:4326", []⟩)
          ⟨true, true, ["b.shp", "a.shp"]⟩ []).1 =
        (fun _ => Except.ok (⟨some "EPSG:4326", []⟩ : GeoDataFrame)) (tmpdirPath ++ [f])) :=
  shapefile_selection (fun _ => Except.ok ⟨some "EPSG:4326", []⟩)
    (fun _ => Except.error "boom") ⟨true, true, ["b.shp", "a.shp"]⟩ [] rfl rfl

/-- The fixed target coordinate reference system of the app. -/
def target_crs : String := "EPSG:3005"

/-- The external `gdf.to_crs(epsg=3005)` collaborator: exact reprojection
of every geometry from the declared source reference into the target
reference, with `reproject` the coordinate transformation supplied by the
projection library.  On a dataset with no declared reference the library
raises (naive geometries cannot be transformed). -/
def to_crs (reproject : String → Geometry → Geometry) (g : GeoDataFrame) :
    Except String GeoDataFrame :=
  match g.crs with
  | none => Except.error "Cannot transform naive geometries"
  | some src =>
    Except.ok ⟨some target_crs, g.regions.map (fun r => ⟨r.name, reproject src r.geom⟩)⟩

/-- Lines 48-49: `if gdf.crs != 'EPSG:3005': gdf = gdf.to_crs(epsg=3005)` —
reproject exactly when the declared reference differs from the target,
leave the dataset untouched otherwise. -/
def normalize_crs (reproject : String → Geometry → Geometry) (g : GeoDataFrame) :
    Except String GeoDataFrame :=
  if g.crs ≠ some target_crs then to_crs reproject g else Except.ok g

/-- C5: a successfully parsed dataset whose declared reference differs from
`EPSG:3005` has every geometry reprojected into `EPSG:3005` (exactly, via
the declared source reference), so the dataset used downstream always
carries the target reference; a dataset already in `EPSG:3005` is returned
unchanged. -/
theorem normalize_crs_target (reproject : String → Geometry → Geometry)
    (g : GeoDataFrame) (c : String) (hc : g.crs = some c) :
    (c ≠ target_crs →
      normalize_crs reproject g =
        Except.ok ⟨some target_crs, g.regions.map (fun r => ⟨r.name, reproject c r.geom⟩)⟩) ∧
    (c = target_crs → normalize_crs reproject g = Except.ok g) ∧
    (∀ g', normalize_crs reproject g = Except.ok g' → g'.crs = some target_crs) := by
  refine ⟨?_, ?_, ?_⟩
  · intro hne
    rw [normalize_crs, if_pos (by rw [hc]; intro h; exact hne (Option.some.inj h)),
        to_crs, hc]
  · intro heq
    rw [normalize_crs, if_neg (by rw [hc, heq]; intro h; exact h rfl)]
  · intro g' hg'
    by_cases hce : c = target_crs
    · rw [normalize_crs, if_neg (by rw [hc, hce]; intro h; exact h rfl)] at hg'
      cases hg'
      rw [hc, hce]
    · rw [normalize_crs, if_pos (by rw [hc]; intro h; exact hce (Option.some.inj h)),
          to_crs, hc] at hg'
      cases hg'
      rfl

/-- A concrete one-region dataset declared in `EPSG:4326`, used in
witnesses. -/
def gdfW : GeoDataFrame := ⟨some "EPSG:4326", [⟨"A", Geometry.other⟩]⟩

/-- Witness for `normalize_crs_target` at a dataset declared in
`EPSG:4326`: it is reprojected and ends up in the target reference. -/
theorem normalize_crs_target_witness :
    ("EPSG:4326" ≠ target_crs →
      normalize_crs (fun _ geo => geo) gdfW =
        Except.ok ⟨some target_crs,
          gdfW.regions.map (fun r => ⟨r.name, (fun _ geo => geo) "EPSG:4326" r.geom⟩)⟩) ∧
    ("EPSG:4326" = target_crs →
      normalize_crs (fun _ geo => geo) gdfW = Except.ok gdfW) ∧
    (∀ g', normalize_crs (fun _ geo => geo) gdfW = Except.ok g' →
      g'.crs = some target_crs) :=
  normalize_crs_target (fun _ geo => geo) gdfW "EPSG:4326" rfl

/-- A district row of the CSV: the `DISTRICT` name, the point location
built from the `x` and `y` columns, and the `Area` and `Rate` columns. -/
structure District where
  name : String
  x : ℚ
  y : ℚ
  area : ℚ
  rate : ℚ
  deriving DecidableEq

/-- The external shapely containment predicate behind
`gpd.sjoin(..., predicate='within')`. -/
abbrev Within := District → Region → Bool

/-- One row of the joined frame: the district row plus the `REGION_NAM`
column brought in from the matched region; `none` models the NaN the left
join writes for an unmatched left row. -/
structure JoinedRow where
  district : District
  regionName : Option String
  deriving DecidableEq

/-- The rows `gpd.sjoin(district_gdf, gdf[['REGION_NAM', 'geometry']],
how='left', predicate='within')` produces for one left row: one output row
per region containing the district's point (in the right frame's order),
or a single row with NaN region columns when no region contains it. -/
def districtRows (within : Within) (rs : List Region) (d : District) : List JoinedRow :=
  if (rs.filter (fun r => within d r)).isEmpty then [⟨d, none⟩]
  else (rs.filter (fun r => within d r)).map (fun r => ⟨d, some r.name⟩)

/-- Line 57: the left spatial join, keeping the left rows in order. -/
def sjoin (within : Within) (ds : List District) (rs : List Region) : List JoinedRow :=
  ds.flatMap (districtRows within rs)

/-- The distinct non-null group keys of `joined.groupby('REGION_NAM')`
(pandas drops NaN group keys).  Pandas additionally sorts the keys, but no
downstream consumer is key-order-sensitive — the merge matches by name and
the chart data is re-sorted — so first-occurrence order is used here. -/
def groupKeys (rows : List JoinedRow) : List String :=
  (rows.filterMap (fun row => row.regionName)).dedup

/-- The rows of the group with key `k`. -/
def groupRows (rows : List JoinedRow) (k : String) : List JoinedRow :=
  rows.filter (fun row => decide (row.regionName = some k))

/-- One row of `region_stats`: a region name with its aggregated mean
`Rate` and summed `Area`. -/
structure RegionStat where
  name : String
  rate : ℚ
  area : ℚ
  deriving DecidableEq

/-- The aggregation `agg` applies to one group: mean of `Rate`, sum of
`Area`. -/
def aggStat (rows : List JoinedRow) (k : String) : RegionStat :=
  ⟨k,
    ((groupRows rows k).map (fun row => row.district.rate)).sum / ((groupRows rows k).length : ℚ),
    ((groupRows rows k).map (fun row => row.district.area)).sum⟩

/-- Line 60: `region_stats = joined.groupby('REGION_NAM').agg(...)` with
mean `Rate` and summed `Area` per region name. -/
def region_stats (within : Within) (ds : List District) (rs : List Region) : List RegionStat :=
  (groupKeys (sjoin within ds rs)).map (aggStat (sjoin within ds rs))

/-- One row of `gdf.merge(region_stats, on='REGION_NAM', how='left')`: the
region row with the aggregate columns, NaN (`none`) when its name has no
stats row. -/
structure MergedRow where
  name : String
  geom : Geometry
  rate : Option ℚ
  area : Option ℚ
  deriving DecidableEq

/-- The merged rows one region row produces: one per stats row with the
same name, or a single row with NaN aggregates when there is none. -/
def mergeRows (stats : List RegionStat) (r : Region) : List MergedRow :=
  if (stats.filter (fun s => decide (s.name = r.name))).isEmpty then [⟨r.name, r.geom, none, none⟩]
  else (stats.filter (fun s => decide (s.name = r.name))).map
    (fun s => ⟨r.name, r.geom, some s.rate, some s.area⟩)

/-- Line 61: the left merge of the aggregates back onto the region frame. -/
def merge_left (rs : List Region) (stats : List RegionStat) : List MergedRow :=
  rs.flatMap (mergeRows stats)

/-- The districts whose join rows fall into the group with key `k`: those
matched (by containment) to a region named `k`. -/
def matched_districts (within : Within) (ds : List District) (rs : List Region)
    (k : String) : List District :=
  ds.filter (fun d => (rs.filter (fun r => within d r)).any (fun r => decide (r.name = k)))

/-- Lexicographic comparison of strings through their character lists — the
order `sort_values(by='REGION_NAM')` sorts string keys by. -/
def lexLe : List Char → List Char → Bool
  | [], _ => true
  | _ :: _, [] => false
  | a :: as, b :: bs => if a = b then lexLe as bs else decide (a < b)

/-- String comparison used for `sort_values(by='REGION_NAM')`. -/
def strLe (a b : String) : Bool := lexLe a.data b.data

/-- Line 139: `gdf[['REGION_NAM', 'Area']].dropna().sort_values(by='REGION_NAM')`
— the bar chart's records, rows with NaN `Area` dropped, sorted ascending
by region name. -/
def area_summary (merged : List MergedRow) : List (String × ℚ) :=
  (merged.filterMap (fun m => m.area.map (fun v => (m.name, v)))).insertionSort
    (fun p q => strLe p.1 q.1 = true)

/-- Line 140: `gdf[['REGION_NAM', 'Rate']].dropna().sort_values(by='Rate')`
— the line chart's records, rows with NaN `Rate` dropped, sorted ascending
by rate. -/
def rate_summary (merged : List MergedRow) : List (String × ℚ) :=
  (merged.filterMap (fun m => m.rate.map (fun v => (m.name, v)))).insertionSort
    (fun p q => p.2 ≤ q.2)

lemma filter_name_map_of_nodup (d : District) (k : String) :
    ∀ (m : List Region), (m.map Region.name).Nodup →
      (m.filter (fun r => decide (r.name = k))).map (fun r => (⟨d, some r.name⟩ : JoinedRow)) =
        if m.any (fun r => decide (r.name = k)) then [⟨d, some k⟩] else [] := by
  intro m
  induction m with
  | nil => intro _; rfl
  | cons r m' ih =>
    intro hnd
    rw [List.map_cons, List.nodup_cons] at hnd
    by_cases hr : r.name = k
    · have hfil : m'.filter (fun r' => decide (r'.name = k)) = [] := by
        apply List.filter_eq_nil_iff.mpr
        intro r' hr'
        simp only [decide_eq_true_eq]
        intro hk
        exact hnd.1 (by rw [hr, ← hk]; exact List.mem_map_of_mem Region.name hr')
      rw [List.filter_cons, if_pos (by simp [hr]), hfil]
      simp [List.any_cons, hr]
    · rw [List.filter_cons, if_neg (by simp [hr]), ih hnd.2]
      simp [List.any_cons, hr]

lemma districtRows_filter_key (within : Within) (rs : List Region) (d : District) (k : String)
    (hnd : (rs.map Region.name).Nodup) :
    (districtRows within rs d).filter (fun row => decide (row.regionName = some k)) =
      if (rs.filter (fun r => within d r)).any (fun r => decide (r.name = k))
      then [⟨d, some k⟩] else [] := by
  have hmnd : ((rs.filter (fun r => within d r)).map Region.name).Nodup :=
    List.Nodup.sublist ((List.filter_sublist rs).map Region.name) hnd
  rw [districtRows]
  by_cases he : (rs.filter (fun r => within d r)).isEmpty
  · rw [if_pos he, List.isEmpty_iff.mp he]
    rfl
  · rw [if_neg he, List.filter_map]
    have hcomp : ((fun row => decide (row.regionName = some k)) ∘
        (fun (r : Region) => (⟨d, some r.name⟩ : JoinedRow))) =
          (fun (r : Region) => decide (r.name = k)) := by
      funext r
      by_cases h : r.name = k <;> simp [h]
    rw [hcomp]
    exact filter_name_map_of_nodup d k _ hmnd

lemma groupRows_sjoin (within : Within) (ds : List District) (rs : List Region) (k : String)
    (hnd : (rs.map Region.name).Nodup) :
    groupRows (sjoin within ds rs) k =
      (matched_districts within ds rs k).map (fun d => ⟨d, some k⟩) := by
  induction ds with
  | nil => rfl
  | cons d ds' ih =>
    rw [groupRows] at ih
    rw [sjoin, List.flatMap_cons, ← sjoin, groupRows, List.filter_append, ih,
        districtRows_filter_key within rs d k hnd]
    conv_rhs => rw [matched_districts, List.filter_cons, ← matched_districts]
    by_cases hc : (rs.filter (fun r => within d r)).any (fun r => decide (r.name = k)) = true
    · rw [if_pos hc, if_pos hc]
      rfl
    · rw [if_neg hc, if_neg hc]
      rfl

lemma mem_groupKeys_sjoin (within : Within) (ds : List District) (rs : List Region)
    (k : String) :
    k ∈ groupKeys (sjoin within ds rs) ↔
      ∃ d ∈ ds, ∃ r ∈ rs, within d r = true ∧ r.name = k := by
  rw [groupKeys, List.mem_dedup]
  constructor
  · intro hk
    rcases List.mem_filterMap.mp hk with ⟨row, hrow, hreg⟩
    rcases List.mem_flatMap.mp hrow with ⟨d, hd, hrowd⟩
    refine ⟨d, hd, ?_⟩
    rw [districtRows] at hrowd
    by_cases he : (rs.filter (fun r => within d r)).isEmpty
    · rw [if_pos he] at hrowd
      rcases List.mem_singleton.mp hrowd with rfl
      exact absurd hreg (by simp)
    · rw [if_neg he] at hrowd
      rcases List.mem_map.mp hrowd with ⟨r, hrmem, hrrow⟩
      rcases List.mem_filter.mp hrmem with ⟨hrrs, hrw⟩
      refine ⟨r, hrrs, hrw, ?_⟩
      rw [← hrrow] at hreg
      simpa using hreg
  · rintro ⟨d, hd, r, hr, hw, rfl⟩
    apply List.mem_filterMap.mpr
    refine ⟨⟨d, some r.name⟩, ?_, rfl⟩
    apply List.mem_flatMap.mpr
    refine ⟨d, hd, ?_⟩
    rw [districtRows]
    have hrf : r ∈ rs.filter (fun r => within d r) := List.mem_filter.mpr ⟨hr, hw⟩
    rw [if_neg (by
      intro he
      rw [List.isEmpty_iff.mp he] at hrf
      exact absurd hrf (List.not_mem_nil r))]
    exact List.mem_map.mpr ⟨r, hrf, rfl⟩

/-- Strict point-in-rectangle containment for the axis-aligned rectangular
test regions below.  On such rectangles it coincides with shapely's
`within` (the point strictly inside the ring); it instantiates the external
containment collaborator in the concrete instances. -/
def rectanglePolyWithin (d : District) (r : Region) : Bool :=
  match r.geom with
  | .polygon ((x0, y0) :: (x1, _) :: _ :: (_, y1) :: _) =>
    decide (x0 < d.x ∧ d.x < x1 ∧ y0 < d.y ∧ d.y < y1)
  | _ => false

/-- Rectangular test region `A` covering x 0-10, y 0-10. -/
def regionA : Region := ⟨"A", Geometry.polygon [(0, 0), (10, 0), (10, 10), (0, 10), (0, 0)]⟩

/-- Rectangular test region `B` covering x 5-15, y 0-10 — it overlaps `A`. -/
def regionB : Region := ⟨"B", Geometry.polygon [(5, 0), (15, 0), (15, 10), (5, 10), (5, 0)]⟩

/-- Rectangular test region `C` covering x 20-30, y 20-30, containing no
test district. -/
def regionC : Region := ⟨"C", Geometry.polygon [(20, 20), (30, 20), (30, 30), (20, 30), (20, 20)]⟩

/-- Rectangular test region named `B` covering x 20-30, y 0-10 — disjoint
from `A`. -/
def regionBfar : Region := ⟨"B", Geometry.polygon [(20, 0), (30, 0), (30, 10), (20, 10), (20, 0)]⟩

/-- Test district at (7, 5): strictly inside both `A` and `B`. -/
def d1 : District := ⟨"D1", 7, 5, 3, 1⟩

/-- Test district at (2, 2): strictly inside `A` only. -/
def d2 : District := ⟨"D2", 2, 2, 1, 4⟩

/-- Test district at (100, 100): inside no test region. -/
def d3 : District := ⟨"D3", 100, 100, 8, 2⟩

/-- Test district at (5, 5) with area 1 and rate 4: inside `A`. -/
def dA : District := ⟨"DA", 5, 5, 1, 4⟩

/-- Test district at (25, 5) with area 5 and rate 1: inside `regionBfar`. -/
def dB : District := ⟨"DB", 25, 5, 5, 1⟩

lemma region_stats_mem (within : Within) (ds : List District) (rs : List Region)
    (s : RegionStat) (hs : s ∈ region_stats within ds rs) :
    s.name ∈ groupKeys (sjoin within ds rs) ∧ s = aggStat (sjoin within ds rs) s.name := by
  rcases List.mem_map.mp hs with ⟨k, hk, rfl⟩
  exact ⟨hk, rfl⟩

/-- C2: each `region_stats` row aggregates exactly the districts matched to
that region name — its `Area` is their sum and its `Rate` their arithmetic
mean over a nonempty matched list — and a district matched to no region is
excluded from every aggregate: removing such a district anywhere in the
input leaves `region_stats` unchanged. -/
theorem region_stats_sum_mean (within : Within) (rs : List Region)
    (hnd : (rs.map Region.name).Nodup) :
    (∀ ds, ∀ s ∈ region_stats within ds rs,
      s.area = ((matched_districts within ds rs s.name).map District.area).sum ∧
      s.rate = ((matched_districts within ds rs s.name).map District.rate).sum /
        ((matched_districts within ds rs s.name).length : ℚ) ∧
      matched_districts within ds rs s.name ≠ []) ∧
    (∀ ds₁ ds₂ d₀, (∀ r ∈ rs, within d₀ r = false) →
      region_stats within (ds₁ ++ d₀ :: ds₂) rs = region_stats within (ds₁ ++ ds₂) rs) := by
  constructor
  · intro ds s hs
    rcases List.mem_map.mp hs with ⟨k, hk, rfl⟩
    have hA := groupRows_sjoin within ds rs k hnd
    have hne : matched_districts within ds rs k ≠ [] := by
      rcases (mem_groupKeys_sjoin within ds rs k).mp hk with ⟨d, hd, r, hr, hw, hname⟩
      have hmem : d ∈ matched_districts within ds rs k := by
        apply List.mem_filter.mpr
        refine ⟨hd, ?_⟩
        apply List.any_eq_true.mpr
        exact ⟨r, List.mem_filter.mpr ⟨hr, hw⟩, by simp [hname]⟩
      exact List.ne_nil_of_mem hmem
    refine ⟨?_, ?_, ?_⟩
    · show ((groupRows (sjoin within ds rs) k).map (fun row => row.district.area)).sum =
        ((matched_districts within ds rs k).map District.area).sum
      rw [hA, List.map_map]
      rfl
    · show ((groupRows (sjoin within ds rs) k).map (fun row => row.district.rate)).sum /
          ((groupRows (sjoin within ds rs) k).length : ℚ) =
        ((matched_districts within ds rs k).map District.rate).sum /
          ((matched_districts within ds rs k).length : ℚ)
      rw [hA, List.map_map, List.length_map]
      rfl
    · exact hne
  · intro ds₁ ds₂ d₀ hd₀
    have hfil : rs.filter (fun r => within d₀ r) = [] :=
      List.filter_eq_nil_iff.mpr (fun r hr => by simp [hd₀ r hr])
    have hrow : districtRows within rs d₀ = [⟨d₀, none⟩] := by
      rw [districtRows, hfil]
      rfl
    have hsjoin : sjoin within (ds₁ ++ d₀ :: ds₂) rs =
        sjoin within ds₁ rs ++ ⟨d₀, none⟩ :: sjoin within ds₂ rs := by
      rw [sjoin, List.flatMap_append, List.flatMap_cons, hrow]
      rfl
    have hsplit : sjoin within (ds₁ ++ ds₂) rs =
        sjoin within ds₁ rs ++ sjoin within ds₂ rs := by
      rw [sjoin, List.flatMap_append]
      rfl
    rw [region_stats, region_stats, hsjoin, hsplit]
    have hkeys : groupKeys (sjoin within ds₁ rs ++ ⟨d₀, none⟩ :: sjoin within ds₂ rs) =
        groupKeys (sjoin within ds₁ rs ++ sjoin within ds₂ rs) := by
      simp [groupKeys, List.filterMap_append, List.filterMap_cons]
    rw [hkeys]
    apply List.map_congr_left
    intro k hk
    have hgr : groupRows (sjoin within ds₁ rs ++ ⟨d₀, none⟩ :: sjoin within ds₂ rs) k =
        groupRows (sjoin within ds₁ rs ++ sjoin within ds₂ rs) k := by
      simp [groupRows, List.filter_append, List.filter_cons]
    rw [aggStat, aggStat, hgr]

/-- Witness for `region_stats_sum_mean` at the concrete fixture with
regions `A` and `C`. -/
theorem region_stats_sum_mean_witness :
    (∀ ds, ∀ s ∈ region_stats rectanglePolyWithin ds [regionA, regionC],
      s.area = ((matched_districts rectanglePolyWithin ds [regionA, regionC] s.name).map
        District.area).sum ∧
      s.rate = ((matched_districts rectanglePolyWithin ds [regionA, regionC] s.name).map
        District.rate).sum /
        ((matched_districts rectanglePolyWithin ds [regionA, regionC] s.name).length : ℚ) ∧
      matched_districts rectanglePolyWithin ds [regionA, regionC] s.name ≠ []) ∧
    (∀ ds₁ ds₂ d₀, (∀ r ∈ [regionA, regionC], rectanglePolyWithin d₀ r = false) →
      region_stats rectanglePolyWithin (ds₁ ++ d₀ :: ds₂) [regionA, regionC] =
        region_stats rectanglePolyWithin (ds₁ ++ ds₂) [regionA, regionC]) :=
  region_stats_sum_mean rectanglePolyWithin [regionA, regionC] (by decide)

/-- C1 counterexample: a district point strictly inside two overlapping
regions produces two join rows — the left join keeps every match, not at
most one — and the district's `Area` (3) enters both regions' aggregates. -/
theorem sjoin_multiple_containment_counterexample :
    sjoin rectanglePolyWithin [d1] [regionA, regionB] =
      [⟨d1, some "A"⟩, ⟨d1, some "B"⟩] ∧
    region_stats rectanglePolyWithin [d1] [regionA, regionB] =
      [⟨"A", 1, 3⟩, ⟨"B", 1, 3⟩] := by
  have h1 : sjoin rectanglePolyWithin [d1] [regionA, regionB] =
      [⟨d1, some "A"⟩, ⟨d1, some "B"⟩] := by decide
  refine ⟨h1, ?_⟩
  rw [region_stats, h1]
  have h2 : groupKeys [⟨d1, some "A"⟩, ⟨d1, some "B"⟩] = ["A", "B"] := by decide
  rw [h2]
  have hgA : groupRows [⟨d1, some "A"⟩, ⟨d1, some "B"⟩] "A" = [⟨d1, some "A"⟩] := by decide
  have hgB : groupRows [⟨d1, some "A"⟩, ⟨d1, some "B"⟩] "B" = [⟨d1, some "B"⟩] := by decide
  simp only [List.map_cons, List.map_nil, aggStat, hgA, hgB]
  norm_num [d1]

/-- C1 (amended): the left spatial join emits one row per (district,
containing region) pair — a district contained in several overlapping
regions yields one row per containing region, an uncontained district a
single NaN row — and, for unique region names, a district's statistics
enter region `r`'s aggregate exactly when `r` contains its point.  A
district can therefore contribute to several regions' aggregates, once per
containing region; an uncontained one contributes to none. -/
theorem sjoin_contributes_per_containing_region (within : Within)
    (ds : List District) (rs : List Region) (hnd : (rs.map Region.name).Nodup) :
    (∀ d, (districtRows within rs d).length = max 1 (rs.countP (fun r => within d r))) ∧
    (∀ r ∈ rs, matched_districts within ds rs r.name = ds.filter (fun d => within d r)) := by
  constructor
  · intro d
    rw [districtRows]
    by_cases he : (rs.filter (fun r => within d r)).isEmpty
    · rw [if_pos he, List.countP_eq_length_filter, List.isEmpty_iff.mp he]
      rfl
    · rw [if_neg he, List.length_map, List.countP_eq_length_filter]
      have hne : rs.filter (fun r => within d r) ≠ [] := by
        intro h
        rw [h] at he
        exact he rfl
      exact (Nat.max_eq_right (List.length_pos.mpr hne)).symm
  · intro r hr
    rw [matched_districts]
    apply List.filter_congr
    intro d _
    by_cases hw : within d r = true
    · rw [hw]
      apply List.any_eq_true.mpr
      exact ⟨r, List.mem_filter.mpr ⟨hr, hw⟩, by simp⟩
    · have hwf : within d r = false := by
        cases h : within d r
        · rfl
        · exact absurd h hw
      rw [hwf]
      apply List.any_eq_false.mpr
      intro r' hr'
      rcases List.mem_filter.mp hr' with ⟨hr'rs, hw'⟩
      simp only [decide_eq_true_eq]
      intro hname
      have : r' = r := List.inj_on_of_nodup_map hnd hr'rs hr hname
      rw [this] at hw'
      exact hw (by exact hw')

/-- Witness for `sjoin_contributes_per_containing_region` at the
overlapping-regions fixture. -/
theorem sjoin_contributes_per_containing_region_witness :
    (∀ d, (districtRows rectanglePolyWithin [regionA, regionB] d).length =
      max 1 ([regionA, regionB].countP (fun r => rectanglePolyWithin d r))) ∧
    (∀ r ∈ [regionA, regionB],
      matched_districts rectanglePolyWithin [d1, d2, d3] [regionA, regionB] r.name =
        [d1, d2, d3].filter (fun d => rectanglePolyWithin d r)) :=
  sjoin_contributes_per_containing_region rectanglePolyWithin [d1, d2, d3]
    [regionA, regionB] (by decide)

lemma mergeRows_name (stats : List RegionStat) (r : Region) (m : MergedRow)
    (hm : m ∈ mergeRows stats r) : m.name = r.name := by
  rw [mergeRows] at hm
  by_cases he : (stats.filter (fun s => decide (s.name = r.name))).isEmpty
  · rw [if_pos he] at hm
    rcases List.mem_singleton.mp hm with rfl
    rfl
  · rw [if_neg he] at hm
    rcases List.mem_map.mp hm with ⟨s, _, rfl⟩
    rfl

lemma merge_left_name_mem (rs : List Region) (stats : List RegionStat) (m : MergedRow)
    (hm : m ∈ merge_left rs stats) : m.name ∈ rs.map Region.name := by
  rcases List.mem_flatMap.mp hm with ⟨r, hr, hmr⟩
  rw [mergeRows_name stats r m hmr]
  exact List.mem_map_of_mem Region.name hr

lemma merge_left_filter_name :
    ∀ (rs : List Region) (stats : List RegionStat) (r : Region),
      (rs.map Region.name).Nodup → r ∈ rs → (∀ s ∈ stats, s.name ≠ r.name) →
      (merge_left rs stats).filter (fun m => decide (m.name = r.name)) =
        [⟨r.name, r.geom, none, none⟩] := by
  intro rs
  induction rs with
  | nil =>
    intro stats r _ hr
    exact absurd hr (List.not_mem_nil r)
  | cons r₀ rs' ih =>
    intro stats r hnd hr hstats
    rw [List.map_cons, List.nodup_cons] at hnd
    rw [merge_left, List.flatMap_cons, ← merge_left, List.filter_append]
    rcases List.mem_cons.mp hr with rfl | hr'
    · have hrows : mergeRows stats r = [⟨r.name, r.geom, none, none⟩] := by
        rw [mergeRows]
        have hf : stats.filter (fun s => decide (s.name = r.name)) = [] :=
          List.filter_eq_nil_iff.mpr (fun s hs => by simp [hstats s hs])
        rw [hf]
        rfl
      rw [hrows]
      have h1 : [(⟨r.name, r.geom, none, none⟩ : MergedRow)].filter
          (fun m => decide (m.name = r.name)) = [⟨r.name, r.geom, none, none⟩] := by
        simp
      have h2 : (merge_left rs' stats).filter (fun m => decide (m.name = r.name)) = [] := by
        apply List.filter_eq_nil_iff.mpr
        intro m hm
        simp only [decide_eq_true_eq]
        intro hname
        exact hnd.1 (hname ▸ merge_left_name_mem rs' stats m hm)
      rw [h1, h2]
      rfl
    · have hname : r₀.name ≠ r.name := by
        intro h
        exact hnd.1 (h ▸ List.mem_map_of_mem Region.name hr')
      have h0 : (mergeRows stats r₀).filter (fun m => decide (m.name = r.name)) = [] := by
        apply List.filter_eq_nil_iff.mpr
        intro m hm
        rw [mergeRows_name stats r₀ m hm]
        simp [hname]
      rw [h0, ih stats r hnd.2 hr' hstats]
      rfl

lemma region_stats_name_ne (within : Within) (ds : List District) (rs : List Region)
    (r : Region) (hnd : (rs.map Region.name).Nodup) (hr : r ∈ rs)
    (hno : ∀ d ∈ ds, within d r = false) :
    ∀ s ∈ region_stats within ds rs, s.name ≠ r.name := by
  intro s hs hname
  have hk := (region_stats_mem within ds rs s hs).1
  rcases (mem_groupKeys_sjoin within ds rs s.name).mp hk with ⟨d, hd, r', hr', hw, hname'⟩
  have : r' = r := List.inj_on_of_nodup_map hnd hr' hr (by rw [hname', hname])
  rw [this] at hw
  rw [hno d hd] at hw
  exact Bool.noConfusion hw

/-- C3: a region with zero matched districts still appears exactly once in
the merged aggregate output, with NaN (`none`) mean rate and total area —
never the number 0 — and its name appears in neither chart's dropna'd
records, so it is excluded from any average computed over them. -/
theorem merge_zero_match_region (within : Within) (ds : List District) (rs : List Region)
    (r : Region) (hnd : (rs.map Region.name).Nodup) (hr : r ∈ rs)
    (hno : ∀ d ∈ ds, within d r = false) :
    (merge_left rs (region_stats within ds rs)).filter
        (fun m => decide (m.name = r.name)) = [⟨r.name, r.geom, none, none⟩] ∧
    (∀ p ∈ rate_summary (merge_left rs (region_stats within ds rs)), p.1 ≠ r.name) ∧
    (∀ p ∈ area_summary (merge_left rs (region_stats within ds rs)), p.1 ≠ r.name) := by
  have hfilter := merge_left_filter_name rs (region_stats within ds rs) r hnd hr
    (region_stats_name_ne within ds rs r hnd hr hno)
  have hrowchar : ∀ m ∈ merge_left rs (region_stats within ds rs), m.name = r.name →
      m = ⟨r.name, r.geom, none, none⟩ := by
    intro m hm hname
    have : m ∈ (merge_left rs (region_stats within ds rs)).filter
        (fun m => decide (m.name = r.name)) :=
      List.mem_filter.mpr ⟨hm, by simp [hname]⟩
    rw [hfilter] at this
    exact List.mem_singleton.mp this
  refine ⟨hfilter, ?_, ?_⟩
  · intro p hp hname
    rcases List.mem_filterMap.mp ((List.mem_insertionSort _).mp hp) with ⟨m, hm, hpm⟩
    rcases Option.map_eq_some'.mp hpm with ⟨v, hv, hpv⟩
    have hmn : m.name = r.name := by rw [← hpv] at hname; exact hname
    have := hrowchar m hm hmn
    rw [this] at hv
    exact Option.noConfusion hv
  · intro p hp hname
    rcases List.mem_filterMap.mp ((List.mem_insertionSort _).mp hp) with ⟨m, hm, hpm⟩
    rcases Option.map_eq_some'.mp hpm with ⟨v, hv, hpv⟩
    have hmn : m.name = r.name := by rw [← hpv] at hname; exact hname
    have := hrowchar m hm hmn
    rw [this] at hv
    exact Option.noConfusion hv

/-- Witness for `merge_zero_match_region` at region `C`, which contains
none of the three test districts. -/
theorem merge_zero_match_region_witness :
    (merge_left [regionA, regionC]
        (region_stats rectanglePolyWithin [d1, d2, d3] [regionA, regionC])).filter
        (fun m => decide (m.name = regionC.name)) =
      [⟨regionC.name, regionC.geom, none, none⟩] ∧
    (∀ p ∈ rate_summary (merge_left [regionA, regionC]
        (region_stats rectanglePolyWithin [d1, d2, d3] [regionA, regionC])),
      p.1 ≠ regionC.name) ∧
    (∀ p ∈ area_summary (merge_left [regionA, regionC]
        (region_stats rectanglePolyWithin [d1, d2, d3] [regionA, regionC])),
      p.1 ≠ regionC.name) :=
  merge_zero_match_region rectanglePolyWithin [d1, d2, d3] [regionA, regionC] regionC
    (by decide) (by decide) (by decide)

lemma lexLe_total : ∀ (a b : List Char), lexLe a b = true ∨ lexLe b a = true := by
  intro a
  induction a with
  | nil => intro b; left; rfl
  | cons x xs ih =>
    intro b
    cases b with
    | nil => right; rfl
    | cons y ys =>
      by_cases hxy : x = y
      · subst hxy
        rcases ih ys with h | h
        · left
          simp [lexLe, h]
        · right
          simp [lexLe, h]
      · have hyx : y ≠ x := Ne.symm hxy
        rcases lt_or_gt_of_ne hxy with h | h
        · left
          simp [lexLe, hxy, h]
        · right
          simp [lexLe, hyx, h]

lemma lexLe_trans :
    ∀ (a b c : List Char), lexLe a b = true → lexLe b c = true → lexLe a c = true := by
  intro a
  induction a with
  | nil => intro b c _ _; rfl
  | cons x xs ih =>
    intro b c hab hbc
    cases b with
    | nil => simp [lexLe] at hab
    | cons y ys =>
      cases c with
      | nil => simp [lexLe] at hbc
      | cons z zs =>
        simp only [lexLe] at hab hbc ⊢
        by_cases hxy : x = y
        · subst hxy
          rw [if_pos rfl] at hab
          by_cases hxz : x = z
          · subst hxz
            rw [if_pos rfl] at hbc
            rw [if_pos rfl]
            exact ih ys zs hab hbc
          · rw [if_neg hxz] at hbc
            rw [if_neg hxz]
            exact hbc
        · rw [if_neg hxy] at hab
          have hxlty : x < y := of_decide_eq_true hab
          by_cases hyz : y = z
          · subst hyz
            rw [if_neg hxy]
            exact hab
          · rw [if_neg hyz] at hbc
            have hyltz : y < z := of_decide_eq_true hbc
            have hxltz : x < z := lt_trans hxlty hyltz
            rw [if_neg (ne_of_lt hxltz)]
            exact decide_eq_true hxltz

instance : IsTotal (String × ℚ) (fun p q => strLe p.1 q.1 = true) :=
  ⟨fun p q => lexLe_total p.1.data q.1.data⟩

instance : IsTrans (String × ℚ) (fun p q => strLe p.1 q.1 = true) :=
  ⟨fun p q r => lexLe_trans p.1.data q.1.data r.1.data⟩

instance : IsTotal (String × ℚ) (fun p q => p.2 ≤ q.2) :=
  ⟨fun p q => le_total p.2 q.2⟩

instance : IsTrans (String × ℚ) (fun p q => p.2 ≤ q.2) :=
  ⟨fun _ _ _ => le_trans⟩

/-- C8 (amended): the bar chart's records are sorted ascending by region
name (`sort_values(by='REGION_NAM')`), and the line chart's records are
sorted ascending by rate (`sort_values(by='Rate')`) — not descending by
area and rate as the output-interface description states. -/
theorem chart_sort_orders (merged : List MergedRow) :
    List.Sorted (fun p q => strLe p.1 q.1 = true) (area_summary merged) ∧
    List.Sorted (fun p q : String × ℚ => p.2 ≤ q.2) (rate_summary merged) :=
  ⟨List.sorted_insertionSort _ _, List.sorted_insertionSort _ _⟩

/-- C8 counterexample: on the two-region fixture the bar chart's records
come out name-sorted as area 1 before area 5, which is not descending by
area, and the line chart's records come out rate-sorted ascending, which
is not descending by rate. -/
theorem chart_sort_counterexample :
    area_summary (merge_left [regionA, regionBfar]
        (region_stats rectanglePolyWithin [dA, dB] [regionA, regionBfar])) =
      [("A", 1), ("B", 5)] ∧
    ¬ List.Sorted (fun p q : String × ℚ => p.2 ≥ q.2)
      (area_summary (merge_left [regionA, regionBfar]
        (region_stats rectanglePolyWithin [dA, dB] [regionA, regionBfar]))) ∧
    rate_summary (merge_left [regionA, regionBfar]
        (region_stats rectanglePolyWithin [dA, dB] [regionA, regionBfar])) =
      [("B", 1), ("A", 4)] ∧
    ¬ List.Sorted (fun p q : String × ℚ => p.2 ≥ q.2)
      (rate_summary (merge_left [regionA, regionBfar]
        (region_stats rectanglePolyWithin [dA, dB] [regionA, regionBfar]))) := by
  have hstats : region_stats rectanglePolyWithin [dA, dB] [regionA, regionBfar] =
      [⟨"A", 4, 1⟩, ⟨"B", 1, 5⟩] := by
    have h1 : sjoin rectanglePolyWithin [dA, dB] [regionA, regionBfar] =
        [⟨dA, some "A"⟩, ⟨dB, some "B"⟩] := by decide
    rw [region_stats, h1]
    have h2 : groupKeys [⟨dA, some "A"⟩, ⟨dB, some "B"⟩] = ["A", "B"] := by decide
    rw [h2]
    have hgA : groupRows [⟨dA, some "A"⟩, ⟨dB, some "B"⟩] "A" = [⟨dA, some "A"⟩] := by decide
    have hgB : groupRows [⟨dA, some "A"⟩, ⟨dB, some "B"⟩] "B" = [⟨dB, some "B"⟩] := by decide
    simp only [List.map_cons, List.map_nil, aggStat, hgA, hgB]
    norm_num [dA, dB]
  rw [hstats]
  have hmerged : merge_left [regionA, regionBfar] [⟨"A", 4, 1⟩, ⟨"B", 1, 5⟩] =
      [⟨"A", regionA.geom, some 4, some 1⟩, ⟨"B", regionBfar.geom, some 1, some 5⟩] := by
    decide
  rw [hmerged]
  have harea : area_summary
      [⟨"A", regionA.geom, some 4, some 1⟩, ⟨"B", regionBfar.geom, some 1, some 5⟩] =
      [("A", 1), ("B", 5)] := by decide
  have hrate : rate_summary
      [⟨"A", regionA.geom, some 4, some 1⟩, ⟨"B", regionBfar.geom, some 1, some 5⟩] =
      [("B", 1), ("A", 4)] := by decide
  rw [harea, hrate]
  refine ⟨rfl, ?_, rfl, ?_⟩
  · intro hsorted
    have := List.rel_of_sorted_cons hsorted ("B", 5) (List.mem_singleton.mpr rfl)
    norm_num at this
  · intro hsorted
    have := List.rel_of_sorted_cons hsorted ("A", 4) (List.mem_singleton.mpr rfl)
    norm_num at this

/-- Modelled from the spec: a tabular dataset of the Upload Pipeline, as
its column names and rows.  The upload pipeline's source file is not part
of this repository snapshot (only the remote-fetch app `streamlit_app.py`
is), so the attribute-join stage is modelled from the specification's
words. -/
structure Table where
  cols : List String
  rows : List (List String)
  deriving DecidableEq

/-- Modelled from the spec: the Upload Pipeline's attribute-join guard —
if either designated join column is absent from its input, fail fast with
a `MissingJoinColumn` error naming both expected column identifiers,
before any aggregation is attempted.  The aggregation collaborator `agg`
is thunked: it runs only after both designated columns are found. -/
def attribute_join_pipeline (regionCol districtCol : String)
    (geo : Table) (tab : Table) (agg : Unit → List RegionStat) :
    Except String (List RegionStat) :=
  if regionCol ∈ geo.cols ∧ districtCol ∈ tab.cols then Except.ok (agg ())
  else
    Except.error
      ("MissingJoinColumn: expected columns " ++ regionCol ++ " and " ++ districtCol)

/-- C9: for every tabular input missing the designated join column, the
attribute-join pipeline fails with a `MissingJoinColumn` error naming both
expected column identifiers; no aggregation is computed (the result is
identical for every aggregation collaborator) and no aggregate output is
produced. -/
theorem attribute_join_missing_column (regionCol districtCol : String)
    (geo tab : Table) (hmiss : districtCol ∉ tab.cols) :
    (∀ agg, attribute_join_pipeline regionCol districtCol geo tab agg =
      Except.error
        ("MissingJoinColumn: expected columns " ++ regionCol ++ " and " ++ districtCol)) ∧
    (∀ agg agg', attribute_join_pipeline regionCol districtCol geo tab agg =
      attribute_join_pipeline regionCol districtCol geo tab agg') := by
  have hcond : ¬(regionCol ∈ geo.cols ∧ districtCol ∈ tab.cols) := fun h => hmiss h.2
  constructor
  · intro agg
    rw [attribute_join_pipeline, if_neg hcond]
  · intro agg agg'
    rw [attribute_join_pipeline, attribute_join_pipeline, if_neg hcond, if_neg hcond]

/-- Witness for `attribute_join_missing_column` on a tabular input whose
columns lack the designated `District` join column. -/
theorem attribute_join_missing_column_witness :
    (∀ agg, attribute_join_pipeline "REGION_NAM" "District"
        ⟨["REGION_NAM"], []⟩ ⟨["Name", "Area", "Rate"], []⟩ agg =
      Except.error ("MissingJoinColumn: expected columns " ++ "REGION_NAM" ++ " and " ++
        "District")) ∧
    (∀ agg agg', attribute_join_pipeline "REGION_NAM" "District"
        ⟨["REGION_NAM"], []⟩ ⟨["Name", "Area", "Rate"], []⟩ agg =
      attribute_join_pipeline "REGION_NAM" "District"
        ⟨["REGION_NAM"], []⟩ ⟨["Name", "Area", "Rate"], []⟩ agg') :=
  attribute_join_missing_column "REGION_NAM" "District"
    ⟨["REGION_NAM"], []⟩ ⟨["Name", "Area", "Rate"], []⟩ (by decide)

end BCOGRegApp
